import Mathlib

/-
Shallow embedding of src/bmdcapture.c (libbmd Decklink capture tool):
the AVPacket FIFO queue (avpacket_queue_init / put / get / flush / size),
the video capture callback, and the writer loop push_packet with its
frame-count / memory-limit termination signaling.

Machine-integer conventions: C `unsigned long long` / `uint64_t` values are
Nat reduced modulo 2^64 at every update; C `int` / `int64_t` values are Int
(with explicit wrap only where the code can actually wrap); C `int64_t`
division truncates toward zero, which is Lean's Int.div.
-/

namespace Bmd

/-- 2^64, the modulus of C unsigned long long / uint64_t arithmetic. -/
def U64 : Nat := 18446744073709551616

/-- The fields of FFmpeg's AVPacket that bmdcapture.c reads or writes.
`size` is the payload byte count (set from non-negative expressions such as
stride * height, so modelled as Nat). -/
structure AVPacket where
  pts : Int
  dts : Int
  duration : Int
  flags : Nat
  stream_index : Int
  size : Nat
deriving DecidableEq

/-- FFmpeg AV_PKT_FLAG_KEY bit. -/
def AV_PKT_FLAG_KEY : Nat := 1

/-- AVERROR(ENOMEM) = -ENOMEM = -12, returned by avpacket_queue_put when
av_malloc fails. -/
def AVERROR_ENOMEM : Int := -12

/-- AV_NOPTS_VALUE = INT64_MIN. -/
def AV_NOPTS_VALUE : Int := -9223372036854775808

/-- av_init_packet: default-initialized packet (pts = dts = AV_NOPTS_VALUE,
duration 0, flags 0, stream_index 0, size 0). -/
def av_init_packet : AVPacket :=
  { pts := AV_NOPTS_VALUE, dts := AV_NOPTS_VALUE, duration := 0,
    flags := 0, stream_index := 0, size := 0 }

/-- The AVPacketQueue state (bmdcapture.c lines 38-45). The singly linked
list first_pkt .. last_pkt is embedded as the List `pkts` (head of the list
= first_pkt, last element = last_pkt). `nb_packets` is a C int (Int),
`size` a C unsigned long long (Nat mod 2^64). `abort_request` is declared
in the struct; the mutex and condition variable are represented by the
signal counts the operations report. -/
structure AVPacketQueue where
  pkts : List AVPacket
  nb_packets : Int
  size : Nat
  abort_request : Int
deriving DecidableEq

/-- avpacket_queue_init: memset to zero gives the empty queue. -/
def avpacket_queue_init : AVPacketQueue :=
  { pkts := [], nb_packets := 0, size := 0, abort_request := 0 }

/-- first_pkt pointer of the embedded queue: none = NULL. -/
def first_pkt (q : AVPacketQueue) : Option AVPacket := q.pkts.head?

/-- last_pkt pointer of the embedded queue: none = NULL. -/
def last_pkt (q : AVPacketQueue) : Option AVPacket := q.pkts.getLast?

/-- Result of avpacket_queue_put: the C return value, the queue state after
the call, and how many times pthread_cond_signal was called on q->cond. -/
structure PutResult where
  ret : Int
  q : AVPacketQueue
  signals : Nat
deriving DecidableEq

/-- avpacket_queue_put (lines 80-113). `ov` is sizeof(AVPacketList), the
per-node bookkeeping overhead added to q->size alongside the payload size.
The two allocation steps are driven by explicit oracles: `mallocOk` is
whether av_malloc(sizeof(AVPacketList)) succeeds, `refRet` the return
value of av_packet_ref (negative = failure). On either failure the queue
is untouched (the mutex is not even taken) and the error is returned; on
success the node is appended at the tail, nb_packets and size are updated
and the condition variable is signaled once. -/
def avpacket_queue_put (ov : Nat) (mallocOk : Bool) (refRet : Int)
    (q : AVPacketQueue) (pkt : AVPacket) : PutResult :=
  if !mallocOk then
    { ret := AVERROR_ENOMEM, q := q, signals := 0 }
  else if refRet < 0 then
    { ret := refRet, q := q, signals := 0 }
  else
    { ret := 0,
      q := { q with
              pkts := q.pkts ++ [pkt],
              nb_packets := q.nb_packets + 1,
              size := (q.size + (pkt.size + ov)) % U64 },
      signals := 1 }

/-- Outcome of one avpacket_queue_get call: `got pkt` is the C return 1
with *pkt filled in; `empty` is the C return 0 (empty queue, block false);
`blocked` means the call is parked in pthread_cond_wait on an empty queue
with block true and, absent a concurrent producer, never returns. -/
inductive GetRes where
  | got (pkt : AVPacket)
  | empty
  | blocked
deriving DecidableEq

/-- The C int return value of avpacket_queue_get for outcomes that return. -/
def GetRes.retcode : GetRes → Option Int
  | .got _ => some 1
  | .empty => some 0
  | .blocked => none

/-- Result of avpacket_queue_get: outcome plus queue state afterwards. -/
structure GetResult where
  res : GetRes
  q : AVPacketQueue
deriving DecidableEq

/-- avpacket_queue_get (lines 115-144). If first_pkt is non-NULL it is
unlinked from the head (last_pkt becomes NULL when the list empties, which
the List embedding gives for free), nb_packets is decremented and size
decremented by pkt.size + sizeof(AVPacketList) in wrapping unsigned
arithmetic. Otherwise: return 0 if not blocking, else wait on the
condition variable (no producer in scope: `blocked`). Note the code never
consults q->abort_request. -/
def avpacket_queue_get (ov : Nat) (q : AVPacketQueue) (block : Bool) :
    GetResult :=
  match q.pkts with
  | pkt1 :: rest =>
    { res := .got pkt1,
      q := { q with
              pkts := rest,
              nb_packets := q.nb_packets - 1,
              size := (q.size + (U64 - (pkt1.size + ov) % U64)) % U64 } }
  | [] =>
    if !block then { res := .empty, q := q }
    else { res := .blocked, q := q }

/-- Result of avpacket_queue_flush: the queue afterwards and the packets
whose payload was released (av_packet_unref + av_freep), in traversal
order from the head. -/
structure FlushResult where
  q : AVPacketQueue
  released : List AVPacket
deriving DecidableEq

/-- avpacket_queue_flush (lines 56-71): walk the list releasing every node
once, then set last_pkt = first_pkt = NULL, nb_packets = 0, size = 0. -/
def avpacket_queue_flush (q : AVPacketQueue) : FlushResult :=
  { q := { q with pkts := [], nb_packets := 0, size := 0 },
    released := q.pkts }

/-- avpacket_queue_size (lines 146-153): snapshot of q->size under lock. -/
def avpacket_queue_size (q : AVPacketQueue) : Nat := q.size

/-- One queue operation, for reasoning about arbitrary put/get sequences.
A put carries its allocation oracles. -/
inductive QOp where
  | put (mallocOk : Bool) (refRet : Int) (pkt : AVPacket)
  | get (block : Bool)
deriving DecidableEq

/-- Apply one operation to the queue state. -/
def runOp (ov : Nat) (q : AVPacketQueue) : QOp → AVPacketQueue
  | .put mallocOk refRet pkt => (avpacket_queue_put ov mallocOk refRet q pkt).q
  | .get block => (avpacket_queue_get ov q block).q

/-- Run a sequence of operations from the freshly initialized queue. -/
def runOps (ov : Nat) (ops : List QOp) : AVPacketQueue :=
  ops.foldl (runOp ov) avpacket_queue_init

/-- Sum over a packet list of payload size plus per-node overhead: the
quantity q->size accounts. -/
def sumBytes (ov : Nat) (pkts : List AVPacket) : Nat :=
  (pkts.map (fun p => p.size + ov)).sum

/-- Enqueue a whole list of packets in order (all allocations succeeding). -/
def putAll (ov : Nat) (q : AVPacketQueue) (ps : List AVPacket) : AVPacketQueue :=
  ps.foldl (fun q p => (avpacket_queue_put ov true 0 q p).q) q

/-- Perform n successive non-blocking gets, collecting the outcomes. -/
def getN (ov : Nat) (q : AVPacketQueue) : Nat → List GetRes × AVPacketQueue
  | 0 => ([], q)
  | n + 1 =>
    let r := avpacket_queue_get ov q false
    let rest := getN ov r.q n
    (r.res :: rest.1, rest.2)

/-- Conversion of a C int to uint64_t: reduction modulo 2^64 (a negative
int such as -1 becomes 2^64 - 1). -/
def uint64_of_int (m : Int) : Nat := (m % (18446744073709551616 : Int)).toNat

/-- The frame-limit condition of push_packet (line 315):
`max_frames && frame_count > max_frames`, where max_frames is a C int
(0 is falsy) and the comparison converts max_frames to uint64_t because
frame_count is uint64_t. -/
def frameLimitHit (max_frames : Int) (frame_count : Nat) : Bool :=
  decide (max_frames ≠ 0 ∧ frame_count > uint64_of_int max_frames)

/-- The memory-limit condition of push_packet (line 319):
avpacket_queue_size(&queue) > memory_limit. -/
def memoryLimitHit (memory_limit : Nat) (q : AVPacketQueue) : Bool :=
  decide (avpacket_queue_size q > memory_limit)

/-- The writer loop push_packet (lines 307-326), run to quiescence with no
concurrent producers: frame_count is fixed at `fc` and the queue only
drains. Each iteration: get(block=1) dequeues the head (if the queue is
empty the get parks in pthread_cond_wait and the loop makes no further
step), the packet is handed to av_interleaved_write_frame (counted in the
first component), then the frame-count check and the memory check each
signal the shutdown condition variable `cond` when they hold (signals
counted in the second component). Returns (writes, signals). -/
def push_packet_aux (max_frames : Int) (memory_limit ov fc : Nat) :
    Nat → AVPacketQueue → Nat × Nat
  | 0, _ => (0, 0)
  | fuel + 1, q =>
    match q.pkts with
    | [] => (0, 0)
    | _ :: _ =>
      let g := avpacket_queue_get ov q true
      let sigs := (if frameLimitHit max_frames fc then 1 else 0) +
                  (if memoryLimitHit memory_limit g.q then 1 else 0)
      let r := push_packet_aux max_frames memory_limit ov fc fuel g.q
      (r.1 + 1, sigs + r.2)

/-- The writer loop, entered with fuel equal to the number of queued
packets: with no producers each get consumes exactly one packet, so the
fuel runs out precisely when the queue empties and the loop parks. -/
def push_packet_run (max_frames : Int) (memory_limit ov fc : Nat)
    (q : AVPacketQueue) : Nat × Nat :=
  push_packet_aux max_frames memory_limit ov fc q.pkts.length q

/-- The packet constructed by video_callback (lines 247-280) before it is
enqueued: pts = dts = timestamp / time_base.num and duration =
duration / time_base.num in C int64 division (truncation toward zero,
Int.tdiv); AV_PKT_FLAG_KEY is or-ed into the zero flags of av_init_packet;
stream_index = video_st->index; size = stride * height. -/
def video_packet (tb_num : Int) (video_index : Int) (height stride : Nat)
    (timestamp duration : Int) : AVPacket :=
  { av_init_packet with
      pts := Int.tdiv timestamp tb_num,
      dts := Int.tdiv timestamp tb_num,
      duration := Int.tdiv duration tb_num,
      flags := Nat.lor av_init_packet.flags AV_PKT_FLAG_KEY,
      stream_index := video_index,
      size := stride * height }

/-- Result of one video_callback invocation: the C return value, the
frame_count global afterwards, the packet handed to avpacket_queue_put,
and the queue afterwards. -/
structure VideoCallbackResult where
  ret : Int
  frame_count : Nat
  pkt : AVPacket
  q : AVPacketQueue
deriving DecidableEq

/-- video_callback (lines 247-280). The statement
`if (verbose && frame_count++ % 25 == 0)` post-increments the uint64_t
frame_count global only when verbose is nonzero, because && short-circuits
before evaluating its right operand. The callback then builds the packet
(video_packet) and enqueues it with avpacket_queue_put, ignoring the put's
return value, and returns 0. -/
def video_callback (ov : Nat) (mallocOk : Bool) (refRet : Int)
    (verbose : Bool) (tb_num video_index : Int) (q : AVPacketQueue)
    (frame_count : Nat) (height stride : Nat) (timestamp duration : Int) :
    VideoCallbackResult :=
  let fc := if verbose then (frame_count + 1) % U64 else frame_count
  let pkt := video_packet tb_num video_index height stride timestamp duration
  let pr := avpacket_queue_put ov mallocOk refRet q pkt
  { ret := 0, frame_count := fc, pkt := pkt, q := pr.q }

/-! Helper lemmas. -/

theorem putAll_cons (ov : Nat) (q : AVPacketQueue) (p : AVPacket)
    (ps : List AVPacket) :
    putAll ov q (p :: ps) = putAll ov (avpacket_queue_put ov true 0 q p).q ps :=
  rfl

theorem put_ok_q (ov : Nat) (q : AVPacketQueue) (p : AVPacket) :
    (avpacket_queue_put ov true 0 q p).q
      = { q with pkts := q.pkts ++ [p],
                 nb_packets := q.nb_packets + 1,
                 size := (q.size + (p.size + ov)) % U64 } := by
  simp [avpacket_queue_put]

theorem putAll_pkts (ov : Nat) :
    ∀ (ps : List AVPacket) (q : AVPacketQueue),
      (putAll ov q ps).pkts = q.pkts ++ ps := by
  intro ps
  induction ps with
  | nil => intro q; simp [putAll]
  | cons p ps ih =>
    intro q
    rw [putAll_cons, ih, put_ok_q]
    simp

theorem getN_got (ov : Nat) :
    ∀ (ps : List AVPacket) (q : AVPacketQueue), q.pkts = ps →
      (getN ov q ps.length).1 = ps.map GetRes.got := by
  intro ps
  induction ps with
  | nil => intro q _; simp [getN]
  | cons p ps ih =>
    intro q h
    have hq : (avpacket_queue_get ov q false).q.pkts = ps := by
      simp [avpacket_queue_get, h]
    have hr : (avpacket_queue_get ov q false).res = GetRes.got p := by
      simp [avpacket_queue_get, h]
    simp [List.length_cons, getN, hr, ih _ hq]

theorem qinv_put (ov : Nat) (m : Bool) (r : Int) (q : AVPacketQueue)
    (p : AVPacket)
    (h1 : q.size = sumBytes ov q.pkts % U64)
    (h2 : q.nb_packets = (q.pkts.length : Int)) :
    (avpacket_queue_put ov m r q p).q.size
        = sumBytes ov (avpacket_queue_put ov m r q p).q.pkts % U64 ∧
    (avpacket_queue_put ov m r q p).q.nb_packets
        = ((avpacket_queue_put ov m r q p).q.pkts.length : Int) := by
  unfold avpacket_queue_put
  split
  · exact ⟨h1, h2⟩
  · split
    · exact ⟨h1, h2⟩
    · constructor
      · show (q.size + (p.size + ov)) % U64 = sumBytes ov (q.pkts ++ [p]) % U64
        have hs : sumBytes ov (q.pkts ++ [p]) = sumBytes ov q.pkts + (p.size + ov) := by
          simp [sumBytes]
        rw [h1, hs, Nat.mod_add_mod]
      · show q.nb_packets + 1 = ((q.pkts ++ [p]).length : Int)
        simp [h2]

theorem qinv_get (ov : Nat) (q : AVPacketQueue) (b : Bool)
    (h1 : q.size = sumBytes ov q.pkts % U64)
    (h2 : q.nb_packets = (q.pkts.length : Int)) :
    (avpacket_queue_get ov q b).q.size
        = sumBytes ov (avpacket_queue_get ov q b).q.pkts % U64 ∧
    (avpacket_queue_get ov q b).q.nb_packets
        = ((avpacket_queue_get ov q b).q.pkts.length : Int) := by
  rcases hp : q.pkts with _ | ⟨p, rest⟩
  · have hq : (avpacket_queue_get ov q b).q = q := by
      unfold avpacket_queue_get
      rw [hp]
      rcases b with _ | _ <;> simp
    rw [hq]
    exact ⟨h1, h2⟩
  · unfold avpacket_queue_get
    rw [hp]
    constructor
    · show (q.size + (U64 - (p.size + ov) % U64)) % U64 = sumBytes ov rest % U64
      rw [h1, hp]
      have hs : sumBytes ov (p :: rest) = (p.size + ov) + sumBytes ov rest := by
        simp [sumBytes]
      rw [hs]
      unfold U64
      omega
    · show q.nb_packets - 1 = (rest.length : Int)
      rw [h2, hp]
      simp

theorem qinv_foldl (ov : Nat) :
    ∀ (ops : List QOp) (q : AVPacketQueue),
      q.size = sumBytes ov q.pkts % U64 →
      q.nb_packets = (q.pkts.length : Int) →
      (ops.foldl (runOp ov) q).size
          = sumBytes ov (ops.foldl (runOp ov) q).pkts % U64 ∧
      (ops.foldl (runOp ov) q).nb_packets
          = ((ops.foldl (runOp ov) q).pkts.length : Int) := by
  intro ops
  induction ops with
  | nil => intro q h1 h2; exact ⟨h1, h2⟩
  | cons op ops ih =>
    intro q h1 h2
    rcases op with ⟨m, r, p⟩ | ⟨b⟩
    · obtain ⟨h1m, h2m⟩ := qinv_put ov m r q p h1 h2
      exact ih _ h1m h2m
    · obtain ⟨h1m, h2m⟩ := qinv_get ov q b h1 h2
      exact ih _ h1m h2m

theorem qinv_runOps (ov : Nat) (ops : List QOp) :
    (runOps ov ops).size = sumBytes ov (runOps ov ops).pkts % U64 ∧
    (runOps ov ops).nb_packets = ((runOps ov ops).pkts.length : Int) := by
  unfold runOps
  exact qinv_foldl ov ops avpacket_queue_init (by rfl) (by rfl)

theorem push_packet_aux_all_cycles (mf : Int) (ml ov fc : Nat)
    (h : frameLimitHit mf fc = true) :
    ∀ (n : Nat) (q : AVPacketQueue), q.pkts.length = n →
      (push_packet_aux mf ml ov fc n q).1 = n ∧
      (push_packet_aux mf ml ov fc n q).2 ≥ n := by
  intro n
  induction n with
  | zero => intro q _; simp [push_packet_aux]
  | succ n ih =>
    intro q hlen
    rcases hp : q.pkts with _ | ⟨p, rest⟩
    · rw [hp] at hlen
      simp at hlen
    · have hg : (avpacket_queue_get ov q true).q.pkts = rest := by
        simp [avpacket_queue_get, hp]
      have hrest : (avpacket_queue_get ov q true).q.pkts.length = n := by
        rw [hg]
        rw [hp] at hlen
        simpa using hlen
      obtain ⟨ih1, ih2⟩ := ih _ hrest
      by_cases hm : memoryLimitHit ml (avpacket_queue_get ov q true).q <;>
        simp [push_packet_aux, hp, h, hm, ih1] <;> omega

/-! Claim theorems. -/

/-- Claim C1: for any sequence of put calls p1 .. pn (no concurrent get),
a subsequent sequence of get calls returns the units in exactly that
order — put appends at the tail and get removes from the head, regardless
of the stream tag carried by each packet. -/
theorem avpacket_queue_fifo (ov : Nat) (ps : List AVPacket) :
    (getN ov (putAll ov avpacket_queue_init ps) ps.length).1
      = ps.map GetRes.got := by
  apply getN_got
  rw [putAll_pkts]
  simp [avpacket_queue_init]

/-- Claim C2: after any sequence of put/get operations from the freshly
initialized queue, avpacket_queue_size returns the sum over currently
enqueued packets of payload size plus the per-node overhead
sizeof(AVPacketList) (exactly, whenever that sum fits in the unsigned
long long field, and modulo 2^64 in general), and nb_packets equals the
number of enqueued packets. -/
theorem avpacket_queue_size_accounting (ov : Nat) (ops : List QOp) :
    avpacket_queue_size (runOps ov ops) = sumBytes ov (runOps ov ops).pkts % U64 ∧
    (runOps ov ops).nb_packets = ((runOps ov ops).pkts.length : Int) ∧
    (sumBytes ov (runOps ov ops).pkts < U64 →
      avpacket_queue_size (runOps ov ops) = sumBytes ov (runOps ov ops).pkts) := by
  obtain ⟨h1, h2⟩ := qinv_runOps ov ops
  refine ⟨h1, h2, fun h => ?_⟩
  unfold avpacket_queue_size
  rw [h1, Nat.mod_eq_of_lt h]

/-- Witness for C2 at a concrete run: put a 100-byte and a 50-byte packet
(overhead 24), get one; the size snapshot equals the remaining sum. -/
theorem avpacket_queue_size_accounting_witness :
    avpacket_queue_size (runOps 24 [QOp.put true 0 ⟨0, 0, 0, 1, 0, 100⟩,
        QOp.put true 0 ⟨1, 1, 0, 1, 0, 50⟩, QOp.get true])
      = sumBytes 24 (runOps 24 [QOp.put true 0 ⟨0, 0, 0, 1, 0, 100⟩,
        QOp.put true 0 ⟨1, 1, 0, 1, 0, 50⟩, QOp.get true]).pkts :=
  (avpacket_queue_size_accounting 24 _).2.2 (by decide)

/-- Claim C3: avpacket_queue_put fails exactly when an allocation step
fails (av_malloc returning NULL gives AVERROR(ENOMEM) = -12; a failing
av_packet_ref propagates its negative error), and on any failure the
queue is unchanged and the condition variable is not signaled; on success
the packet is appended at the tail and the condition variable is signaled
once. -/
theorem avpacket_queue_put_spec (ov : Nat) (m : Bool) (r : Int)
    (q : AVPacketQueue) (p : AVPacket) :
    ((avpacket_queue_put ov m r q p).ret ≠ 0 ↔ (m = false ∨ r < 0)) ∧
    ((avpacket_queue_put ov m r q p).ret ≠ 0 →
      (avpacket_queue_put ov m r q p).ret < 0 ∧
      (avpacket_queue_put ov m r q p).q = q ∧
      (avpacket_queue_put ov m r q p).signals = 0) ∧
    ((avpacket_queue_put ov m r q p).ret = 0 →
      (avpacket_queue_put ov m r q p).q.pkts = q.pkts ++ [p] ∧
      (avpacket_queue_put ov m r q p).signals = 1) := by
  rcases m with _ | _
  · simp [avpacket_queue_put, AVERROR_ENOMEM]
  · by_cases hr : r < 0
    · constructor
      · simp [avpacket_queue_put, hr]
        omega
      · constructor
        · intro _
          simp [avpacket_queue_put, hr]
        · intro h0
          simp [avpacket_queue_put, hr] at h0
          omega
    · simp [avpacket_queue_put, hr]

/-- Witness for C3: a successful put on the empty queue appends the packet
and signals once. -/
theorem avpacket_queue_put_spec_witness :
    (avpacket_queue_put 0 true 0 avpacket_queue_init ⟨0, 0, 0, 0, 0, 7⟩).q.pkts
        = avpacket_queue_init.pkts ++ [⟨0, 0, 0, 0, 0, 7⟩] ∧
    (avpacket_queue_put 0 true 0 avpacket_queue_init ⟨0, 0, 0, 0, 0, 7⟩).signals = 1 :=
  (avpacket_queue_put_spec 0 true 0 avpacket_queue_init ⟨0, 0, 0, 0, 0, 7⟩).2.2 (by decide)

/-- Claim C4: get on a non-empty queue removes and returns the head
packet, decrementing nb_packets and updating size in the same step (the
size accounting stays exact); get with block = false on an empty queue
returns the empty result (C return value 0) immediately with the queue
unchanged. -/
theorem avpacket_queue_get_spec (ov : Nat) (q : AVPacketQueue) (block : Bool) :
    (∀ p rest, q.pkts = p :: rest →
      (avpacket_queue_get ov q block).res = GetRes.got p ∧
      (avpacket_queue_get ov q block).q.pkts = rest ∧
      (avpacket_queue_get ov q block).q.nb_packets = q.nb_packets - 1 ∧
      (q.size = sumBytes ov q.pkts % U64 →
        (avpacket_queue_get ov q block).q.size = sumBytes ov rest % U64)) ∧
    (q.pkts = [] → block = false →
      GetRes.retcode (avpacket_queue_get ov q block).res = some 0 ∧
      (avpacket_queue_get ov q block).q = q) := by
  constructor
  · intro p rest hp
    refine ⟨?_, ?_, ?_, ?_⟩
    · simp [avpacket_queue_get, hp]
    · simp [avpacket_queue_get, hp]
    · simp [avpacket_queue_get, hp]
    · intro hs
      have hred : (avpacket_queue_get ov q block).q.size
          = (q.size + (U64 - (p.size + ov) % U64)) % U64 := by
        simp [avpacket_queue_get, hp]
      rw [hred, hs, hp]
      have hcons : sumBytes ov (p :: rest) = (p.size + ov) + sumBytes ov rest := by
        simp [sumBytes]
      rw [hcons]
      unfold U64
      omega
  · intro hp hb
    subst hb
    simp [avpacket_queue_get, hp, GetRes.retcode]

/-- Witness for C4: getting from a one-packet queue returns that packet
and leaves an empty, exactly accounted queue. -/
theorem avpacket_queue_get_spec_witness :
    (avpacket_queue_get 24 ⟨[⟨1, 1, 1, 1, 0, 10⟩], 1, 34, 0⟩ true).res
        = GetRes.got ⟨1, 1, 1, 1, 0, 10⟩ ∧
    (avpacket_queue_get 24 ⟨[⟨1, 1, 1, 1, 0, 10⟩], 1, 34, 0⟩ true).q.size
        = sumBytes 24 [] % U64 := by
  have h := (avpacket_queue_get_spec 24 ⟨[⟨1, 1, 1, 1, 0, 10⟩], 1, 34, 0⟩ true).1
      ⟨1, 1, 1, 1, 0, 10⟩ [] rfl
  exact ⟨h.1, h.2.2.2 (by decide)⟩

/-- Claim C5: after avpacket_queue_flush, nb_packets = 0, the size
snapshot is 0, both first_pkt and last_pkt are NULL, and every previously
queued node was released (unref + free), each exactly once, in list
order. -/
theorem avpacket_queue_flush_spec (q : AVPacketQueue) :
    (avpacket_queue_flush q).q.nb_packets = 0 ∧
    avpacket_queue_size (avpacket_queue_flush q).q = 0 ∧
    first_pkt (avpacket_queue_flush q).q = none ∧
    last_pkt (avpacket_queue_flush q).q = none ∧
    (avpacket_queue_flush q).released = q.pkts := by
  simp [avpacket_queue_flush, avpacket_queue_size, first_pkt, last_pkt]

/-- Claim C6: the packet built by video_callback has
pts = dts = timestamp / time_base.num and duration = duration /
time_base.num (C int64 truncating division), the key-frame flag set,
stream_index = the video stream's index, payload size = stride * height;
when the put's allocations succeed it is appended to the queue. -/
theorem video_callback_packet_spec (ov : Nat) (m : Bool) (r : Int)
    (verbose : Bool) (tb_num vi : Int) (q : AVPacketQueue)
    (fc height stride : Nat) (ts dur : Int) :
    (video_callback ov m r verbose tb_num vi q fc height stride ts dur).pkt.pts
        = Int.tdiv ts tb_num ∧
    (video_callback ov m r verbose tb_num vi q fc height stride ts dur).pkt.dts
        = Int.tdiv ts tb_num ∧
    (video_callback ov m r verbose tb_num vi q fc height stride ts dur).pkt.duration
        = Int.tdiv dur tb_num ∧
    (video_callback ov m r verbose tb_num vi q fc height stride ts dur).pkt.flags
        = AV_PKT_FLAG_KEY ∧
    (video_callback ov m r verbose tb_num vi q fc height stride ts dur).pkt.stream_index
        = vi ∧
    (video_callback ov m r verbose tb_num vi q fc height stride ts dur).pkt.size
        = stride * height ∧
    (m = true → 0 ≤ r →
      (video_callback ov m r verbose tb_num vi q fc height stride ts dur).q.pkts
        = q.pkts ++
          [(video_callback ov m r verbose tb_num vi q fc height stride ts dur).pkt]) := by
  refine ⟨rfl, rfl, rfl, ?_, rfl, rfl, ?_⟩
  · simp only [video_callback, video_packet, av_init_packet, AV_PKT_FLAG_KEY]
    decide
  · intro hm hr
    subst hm
    have hnl : ¬ (r < 0) := not_lt.mpr hr
    simp [video_callback, avpacket_queue_put, hnl]

/-- Witness for C6: a concrete callback invocation (tb_num 1000, video
stream index 0, 2 rows of stride 3, timestamp 5500, duration 1000,
allocations succeeding) enqueues its packet. -/
theorem video_callback_packet_spec_witness :
    (video_callback 24 true 0 false 1000 0 avpacket_queue_init 0 2 3 5500 1000).q.pkts
      = avpacket_queue_init.pkts ++
        [(video_callback 24 true 0 false 1000 0 avpacket_queue_init 0 2 3 5500 1000).pkt] :=
  (video_callback_packet_spec 24 true 0 false 1000 0 avpacket_queue_init
      0 2 3 5500 1000).2.2.2.2.2.2 rfl (by decide)

/-- Claim C7, code evaluation at the failing input: with verbose off (the
default), a video_callback invocation leaves frame_count unchanged,
because `if (verbose && frame_count++ % 25 == 0)` short-circuits before
the post-increment; the increment happens only when verbose is set. -/
theorem video_callback_frame_count_requires_verbose :
    (video_callback 24 true 0 false 1 0 avpacket_queue_init 0 576 1440 0 0).frame_count
        = 0 ∧
    (video_callback 24 true 0 true 1 0 avpacket_queue_init 0 576 1440 0 0).frame_count
        = 1 :=
  ⟨rfl, rfl⟩

/-- Claim C8 counterexample: max_frames = 10, capture counter at 12 (past
the threshold), memory limit 1 GiB never hit; draining a queue of two
packets signals the shutdown condition variable twice — once per write
cycle — not exactly once. -/
theorem push_packet_signal_repeats_counterexample :
    (push_packet_run 10 1073741824 24 12
        ⟨[⟨0, 0, 0, 1, 0, 100⟩, ⟨1, 1, 0, 1, 0, 100⟩], 2, 248, 0⟩).2 = 2 ∧
    (push_packet_run 10 1073741824 24 12
        ⟨[⟨0, 0, 0, 1, 0, 100⟩, ⟨1, 1, 0, 1, 0, 100⟩], 2, 248, 0⟩).2 ≠ 1 := by
  constructor <;> decide

/-- Claim C8 as amended: once the frame-count condition holds
(max_frames nonzero and frame_count beyond it as uint64), every write
cycle of the writer loop signals the shutdown condition variable — so
draining n queued packets produces n writes and at least n signals, not
exactly one. -/
theorem push_packet_signals_every_cycle (mf : Int) (ml ov fc : Nat)
    (q : AVPacketQueue) (h : frameLimitHit mf fc = true) :
    (push_packet_run mf ml ov fc q).1 = q.pkts.length ∧
    (push_packet_run mf ml ov fc q).2 ≥ q.pkts.length := by
  unfold push_packet_run
  exact push_packet_aux_all_cycles mf ml ov fc h q.pkts.length q rfl

/-- Witness for the amended C8: one queued packet, max_frames = 10,
frame_count = 12: one write and at least one signal. -/
theorem push_packet_signals_every_cycle_witness :
    (push_packet_run 10 1073741824 24 12 ⟨[⟨0, 0, 0, 1, 0, 100⟩], 1, 124, 0⟩).1 = 1 ∧
    (push_packet_run 10 1073741824 24 12 ⟨[⟨0, 0, 0, 1, 0, 100⟩], 1, 124, 0⟩).2 ≥ 1 := by
  have h := push_packet_signals_every_cycle 10 1073741824 24 12
      ⟨[⟨0, 0, 0, 1, 0, 100⟩], 1, 124, 0⟩ (by decide)
  simpa using h

/-- Claim C9, code evaluation at the failing input: even with
abort_request set (as a teardown request would), avpacket_queue_get on
the drained queue with block = 1 parks in pthread_cond_wait — there is no
C return value at all (the code never consults abort_request and offers
no "queue permanently closed" result), so the writer loop's while
condition is never re-evaluated and the loop cannot exit. -/
theorem avpacket_queue_get_ignores_abort :
    (avpacket_queue_get 24 ⟨[], 0, 0, 1⟩ true).res = GetRes.blocked ∧
    GetRes.retcode (avpacket_queue_get 24 ⟨[], 0, 0, 1⟩ true).res = none :=
  ⟨rfl, rfl⟩

/-- Claim C10: with the default max_frames = -1, the writer loop's
frame-limit condition `max_frames && frame_count > max_frames` is false
for every uint64 frame_count, because the C comparison converts -1 to
2^64 - 1. -/
theorem frame_limit_disabled_by_default (fc : Nat) (h : fc < U64) :
    frameLimitHit (-1) fc = false := by
  have hm : uint64_of_int (-1) = 18446744073709551615 := by decide
  have hnot : ¬ ((-1 : Int) ≠ 0 ∧ fc > uint64_of_int (-1)) := by
    rintro ⟨-, hgt⟩
    rw [hm] at hgt
    unfold U64 at h
    omega
  unfold frameLimitHit
  exact decide_eq_false hnot

/-- Witness for C10 at frame_count = 12345. -/
theorem frame_limit_disabled_by_default_witness :
    frameLimitHit (-1) 12345 = false :=
  frame_limit_disabled_by_default 12345 (by decide)

end Bmd
